import Mathlib

/-!
Verification of the Othello web client against its natural-language
specification.  The definitions below are shallow embeddings of the
JavaScript/JSX source of the repository: the frontend `GameView`
message handler and cell-click handler, the `MainMenu` game-setup form,
the `network` URL helpers, the `withRetry` helper of `App`, and (modelled
from the specification, since the backend rules engine is not among the
provided sources) the Othello rules engine.
-/

namespace Othello

/-! ## Client data model (GameView.jsx) -/

/-- The `state` payload of a `game_state` message, as consumed by
`GameView.jsx` (board of ints, `current_player` 0 = Black / 1 = White,
piece counts, `valid_moves` as coordinate pairs, flags, optional status
message). -/
structure GameState where
  board : List (List Int)
  current_player : Int
  black_count : Nat
  white_count : Nat
  valid_moves : List (Int × Int)
  game_over : Bool
  winner : Int
  paused : Bool
  message : Option String
deriving DecidableEq

/-- The match configuration object built by `handleStartGame` in the
`MainMenu` component: exactly the seven fields of the object literal. -/
structure MatchConfig where
  board_size : Int
  black_player_type : String
  black_bot_name : Option String
  white_player_type : String
  white_bot_name : Option String
  init_timeout : ℚ
  move_timeout : ℚ
deriving DecidableEq

/-- The React state of `GameView` that the WebSocket message handler and
the cell-click handler read and write: `gameState`, `matchId`, the
displayed status `message`, and the `initReportedRef` flag. -/
structure ClientState where
  gameState : Option GameState
  matchId : Option Nat
  message : String
  initReported : Bool
deriving DecidableEq

/-- Initial `GameView` state: no game state, no match id, empty message,
initialization not yet reported. -/
def initialClientState : ClientState :=
  ⟨none, none, "", false⟩

/-- Outbound `play_move` message sent by `handleCellClick`
(`{type: "play_move", match_id, row, col}`). -/
structure PlayMoveMsg where
  match_id : Option Nat
  row : Int
  col : Int
deriving DecidableEq

/-- `handleCellClick` from `GameView.jsx`: returns the updated client
state together with the `play_move` message sent, if any.  `wsOpen`
models `wsRef.current` being non-null.  Mirrors the source: bail out if
there is no game state, the game is over, or there is no socket; bail
out if the seat to move is not configured as a human; show
`Invalid move!` if the clicked cell is not in `valid_moves`; otherwise
send the move. -/
def handleCellClick (cfg : Option MatchConfig) (st : ClientState)
    (wsOpen : Bool) (row col : Int) : ClientState × Option PlayMoveMsg :=
  match st.gameState with
  | none => (st, none)
  | some gs =>
    if gs.game_over || !wsOpen then (st, none)
    else
      let currentPlayerType : Option String :=
        cfg.map (fun c =>
          if gs.current_player = 0 then c.black_player_type else c.white_player_type)
      if currentPlayerType ≠ some "human" then (st, none)
      else if !(gs.valid_moves.any (fun p => p.1 == row && p.2 == col)) then
        ({ st with message := "Invalid move!" }, none)
      else (st, some ⟨st.matchId, row, col⟩)

/-! ## WebSocket message handling (GameView.jsx) -/

/-- Inbound server messages as dispatched on by `handleWebSocketMessage`
in `GameView.jsx`; `other` stands for any message whose `type` is none of
the six handled ones. -/
inductive ServerMsg where
  | matchCreated (match_id : Nat)
  | gameState (state : GameState)
  | movePlayed (row col : Int)
  | matchEnd (winner : Int) (message : Option String)
  | errorMsg (message : String)
  | botError (message : String)
  | other (ty : String)
deriving DecidableEq

/-- True exactly for `game_state` messages. -/
def ServerMsg.isGameState : ServerMsg → Bool
  | .gameState _ => true
  | _ => false

/-- Observable callback invocations made by the message handler:
`reportStage`, `onInitComplete`, and `onInitError`. -/
inductive InitEvent where
  | stageChange (stage previousStage : String)
  | complete
  | errorEv (message : String)
deriving DecidableEq

/-- The winner text computed in the `match_end` branch of
`GameView.jsx`: `-1` is a draw, `0` Black, anything else White. -/
def winnerText (winner : Int) : String :=
  if winner = -1 then "Draw!"
  else if winner = 0 then "Black wins!"
  else "White wins!"

/-- The text displayed on `match_end`: `data.message || winnerText`,
where a missing or empty `message` is falsy. -/
def matchEndMessage (winner : Int) (message : Option String) : String :=
  match message with
  | some s => if s = "" then winnerText winner else s
  | none => winnerText winner

/-- `handleWebSocketMessage` from `GameView.jsx`.  `hasComplete` and
`hasError` model whether the `onInitComplete` / `onInitError` callback
refs are non-null.  Returns the updated client state and the list of
callback invocations, in order.  The `default` switch branch only logs
and is modelled by the `other` case. -/
def handleWebSocketMessage (hasComplete hasError : Bool)
    (st : ClientState) (msg : ServerMsg) : ClientState × List InitEvent :=
  match msg with
  | .matchCreated mid =>
      ({ st with matchId := some mid, message := "Match created" },
       [.stageChange "waiting_server" "creating_match"])
  | .gameState gs =>
      let newMessage :=
        match gs.message with
        | some s => if s = "" then st.message else s
        | none => st.message
      let st1 := { st with gameState := some gs, message := newMessage }
      if !st.initReported && hasComplete then
        ({ st1 with initReported := true },
         [.stageChange "ready" "waiting_server", .complete])
      else (st1, [])
  | .movePlayed r c =>
      ({ st with message :=
          "Move played: (" ++ toString r ++ ", " ++ toString c ++ ")" }, [])
  | .matchEnd w m =>
      ({ st with message := matchEndMessage w m }, [])
  | .errorMsg m =>
      ({ st with message := "Error: " ++ m },
       if hasError && !st.initReported then [.errorEv ("Server error: " ++ m)] else [])
  | .botError m =>
      ({ st with message := "Bot Error: " ++ m },
       if hasError && !st.initReported then
         [.errorEv ("Bot initialization failed: " ++ m)] else [])
  | .other _ => (st, [])

/-- Processing of a whole inbound message trace on one connection:
left fold of `handleWebSocketMessage`, accumulating the emitted callback
events in order. -/
def processTrace (hasComplete hasError : Bool)
    (st : ClientState) : List ServerMsg → ClientState × List InitEvent
  | [] => (st, [])
  | msg :: rest =>
      let step := handleWebSocketMessage hasComplete hasError st msg
      let tail := processTrace hasComplete hasError step.1 rest
      (tail.1, step.2 ++ tail.2)

/-! ## Game-setup form (MainMenu component) -/

/-- React state of the `MainMenu` form that feeds `handleStartGame`:
board-size slider value, per-seat player types and bot names, and the
two timeout inputs. -/
structure MenuState where
  boardSize : Int
  blackPlayerType : String
  blackBotName : String
  whitePlayerType : String
  whiteBotName : String
  initTimeout : ℚ
  moveTimeout : ℚ
deriving DecidableEq

/-- The `useState` defaults of `MainMenu`: 8×8 board, Black human,
White bot with no bot chosen yet, `initTimeout` 60, `moveTimeout` 1. -/
def initialMenuState : MenuState :=
  ⟨8, "human", "", "bot", "", 60, 1⟩

/-- User interactions with the form controls.  For the timeout number
inputs, `none` models a field whose `parseFloat` is `NaN`. -/
inductive FormEvent where
  | setBoardSize (v : Int)
  | setBlackPlayerType (s : String)
  | setBlackBotName (s : String)
  | setWhitePlayerType (s : String)
  | setWhiteBotName (s : String)
  | setInitTimeout (v : Option ℚ)
  | setMoveTimeout (v : Option ℚ)
deriving DecidableEq

/-- True for events targeting the initialization-timeout input. -/
def FormEvent.touchesInitTimeout : FormEvent → Bool
  | .setInitTimeout _ => true
  | _ => false

/-- True for events targeting the move-timeout input. -/
def FormEvent.touchesMoveTimeout : FormEvent → Bool
  | .setMoveTimeout _ => true
  | _ => false

/-- A range input with `min="4"` and `max="100"` (default step 1) only
ever reports integer values clamped into `[4, 100]`. -/
def clampSlider (v : Int) : Int :=
  max 4 (min 100 v)

/-- The JavaScript fallback `parseFloat(e.target.value) || d`: `NaN`
(here `none`) and `0` are falsy and fall back to the default `d`. -/
def parseFloatOr (v : Option ℚ) (d : ℚ) : ℚ :=
  match v with
  | some q => if q = 0 then d else q
  | none => d

/-- One `onChange` handler application of the `MainMenu` form. -/
def applyFormEvent (st : MenuState) : FormEvent → MenuState
  | .setBoardSize v => { st with boardSize := clampSlider v }
  | .setBlackPlayerType s => { st with blackPlayerType := s }
  | .setBlackBotName s => { st with blackBotName := s }
  | .setWhitePlayerType s => { st with whitePlayerType := s }
  | .setWhiteBotName s => { st with whiteBotName := s }
  | .setInitTimeout v => { st with initTimeout := parseFloatOr v 60 }
  | .setMoveTimeout v => { st with moveTimeout := parseFloatOr v 1 }

/-- The form state reached from the defaults by a sequence of control
interactions. -/
def runForm (evs : List FormEvent) : MenuState :=
  evs.foldl applyFormEvent initialMenuState

/-- `handleStartGame` from the `MainMenu` component: rejects (via
`alert`) a bot seat with an empty bot name, otherwise emits the config
object with the seven fields of the object literal, with each seat's
bot name set exactly when that seat is a bot. -/
def handleStartGame (st : MenuState) : Option MatchConfig :=
  if st.blackPlayerType = "bot" && st.blackBotName = "" then none
  else if st.whitePlayerType = "bot" && st.whiteBotName = "" then none
  else some
    { board_size := st.boardSize
      black_player_type := st.blackPlayerType
      black_bot_name := if st.blackPlayerType = "bot" then some st.blackBotName else none
      white_player_type := st.whitePlayerType
      white_bot_name := if st.whitePlayerType = "bot" then some st.whiteBotName else none
      init_timeout := st.initTimeout
      move_timeout := st.moveTimeout }

/-! ## The create_match wire message (GameView.jsx, ws.onopen) -/

/-- JSON-shaped values appearing in the serialized config. -/
inductive JsonVal where
  | null
  | str (s : String)
  | num (q : ℚ)
deriving DecidableEq

/-- Serialization of an `Option String` field: `null` for `none`. -/
def jsonOfOptStr : Option String → JsonVal
  | some s => .str s
  | none => .null

/-- The field list of the `config` object as serialized by
`JSON.stringify` in `ws.onopen`, in object-literal order. -/
def configFields (cfg : MatchConfig) : List (String × JsonVal) :=
  [("board_size", .num cfg.board_size),
   ("black_player_type", .str cfg.black_player_type),
   ("black_bot_name", jsonOfOptStr cfg.black_bot_name),
   ("white_player_type", .str cfg.white_player_type),
   ("white_bot_name", jsonOfOptStr cfg.white_bot_name),
   ("init_timeout", .num cfg.init_timeout),
   ("move_timeout", .num cfg.move_timeout)]

/-- The message `GameView` sends in `ws.onopen`:
`{type: "create_match", config}`, as a type tag plus config fields. -/
def createMatchMessage (cfg : MatchConfig) : String × List (String × JsonVal) :=
  ("create_match", configFields cfg)

/-- The seven config field names required by the wire protocol. -/
def protocolConfigKeys : List String :=
  ["board_size", "black_player_type", "black_bot_name",
   "white_player_type", "white_bot_name", "init_timeout", "move_timeout"]

/-! ## Network URL resolution (utils/network.js) -/

/-- The environment `getApiUrl` / `getWsUrl` read: the two Vite
variables (`none` models an undefined variable), the `PROD` / `DEV`
mode flags, and the relevant pieces of `window.location`. -/
structure NetEnv where
  viteApiUrl : Option String
  viteWsUrl : Option String
  isProd : Bool
  isDev : Bool
  protocol : String
  host : String
  hostname : String
deriving DecidableEq

/-- JavaScript truthiness of an environment variable: defined and
non-empty. -/
def envTruthy : Option String → Bool
  | some s => s ≠ ""
  | none => false

/-- `LOCALHOST_HOSTS` from `network.js`. -/
def LOCALHOST_HOSTS : List String := ["localhost", "127.0.0.1", "::1"]

/-- `DEFAULT_BACKEND_PORT` from `network.js`. -/
def DEFAULT_BACKEND_PORT : String := "8000"

/-- `isLocalhost`: whether `window.location.hostname` is one of the
localhost addresses. -/
def isLocalhost (env : NetEnv) : Bool :=
  LOCALHOST_HOSTS.contains env.hostname

/-- `getApiUrl` from `network.js`: explicit `VITE_API_URL` if truthy;
else protocol+host in production; else hostname:8000 in remote dev;
else the localhost default. -/
def getApiUrl (env : NetEnv) : String :=
  if envTruthy env.viteApiUrl then env.viteApiUrl.getD ""
  else if env.isProd then env.protocol ++ "//" ++ env.host
  else if env.isDev && !isLocalhost env then
    env.protocol ++ "//" ++ env.hostname ++ ":" ++ DEFAULT_BACKEND_PORT
  else "http://localhost:" ++ DEFAULT_BACKEND_PORT

/-- The ws scheme picked when `network.js` builds a WebSocket URL
itself: `wss:` iff the page protocol is `https:`. -/
def wsScheme (protocol : String) : String :=
  if protocol = "https:" then "wss:" else "ws:"

/-- `getWsUrl` from `network.js`: explicit `VITE_WS_URL` if truthy;
else scheme+host in production; else scheme+hostname:8000 in remote
dev; else the fixed `ws://localhost:8000` default. -/
def getWsUrl (env : NetEnv) : String :=
  if envTruthy env.viteWsUrl then env.viteWsUrl.getD ""
  else if env.isProd then wsScheme env.protocol ++ "//" ++ env.host
  else if env.isDev && !isLocalhost env then
    wsScheme env.protocol ++ "//" ++ env.hostname ++ ":" ++ DEFAULT_BACKEND_PORT
  else "ws://localhost:" ++ DEFAULT_BACKEND_PORT

/-! ## Retry helper (App component) -/

/-- `MAX_RETRIES` from the `App` component. -/
def MAX_RETRIES : Nat := 3

/-- `RETRY_DELAY_BASE` (milliseconds) from the `App` component. -/
def RETRY_DELAY_BASE : Nat := 1000

/-- Outcome of a `withRetry` run: the value returned or the error
rethrown (`Except.error none` can only arise for a zero retry budget,
where the source rethrows an undefined `lastError`), the number of
attempts made, and the sleep durations awaited between attempts, in
order. -/
structure RetryResult (ε α : Type) where
  result : Except (Option ε) α
  attempts : Nat
  delays : List Nat

/-- The retry loop of `withRetry`: `remaining` counts the loop
iterations left (`maxRetries - attempt`), `attempt` is the 0-based
iteration index.  A successful operation returns at once; a failed one
records the error and, unless it was the final attempt, sleeps
`1000 * 2 ^ attempt` milliseconds before the next iteration. -/
def withRetryAux (op : Nat → Except ε α) :
    Nat → Nat → Option ε → RetryResult ε α
  | 0, attempt, lastError => ⟨.error lastError, attempt, []⟩
  | remaining + 1, attempt, _ =>
    match op attempt with
    | .ok a => ⟨.ok a, attempt + 1, []⟩
    | .error e =>
      let rest := withRetryAux op remaining (attempt + 1) (some e)
      if remaining > 0 then
        ⟨rest.result, rest.attempts, (RETRY_DELAY_BASE * 2 ^ attempt) :: rest.delays⟩
      else ⟨rest.result, rest.attempts, rest.delays⟩

/-- `withRetry(operation)` with the default `maxRetries = MAX_RETRIES`.
The operation is modelled as a function from the attempt index to that
attempt's outcome. -/
def withRetry (op : Nat → Except ε α) : RetryResult ε α :=
  withRetryAux op MAX_RETRIES 0 none

/-! ## Rules engine

Modelled from the spec: the backend Rules Engine source
(`legalMoves` / `applyMove`) is not among the provided files — only the
specification's §4.1 describes it — so the definitions below follow the
spec's words. -/

/-- Modelled from the spec: a board cell is one of Empty, Black,
White. -/
inductive Cell where
  | empty
  | black
  | white
deriving DecidableEq

/-- The opposing side of a piece colour. -/
def Cell.opponent : Cell → Cell
  | .black => .white
  | .white => .black
  | .empty => .empty

/-- Modelled from the spec: a board of size N mapping (row, col) to a
cell, represented row-major. -/
structure Board where
  size : Nat
  cells : List (List Cell)
deriving DecidableEq

/-- Whether (r, c) is on the board. -/
def Board.inBounds (b : Board) (r c : Int) : Bool :=
  0 ≤ r && r < (b.size : Int) && 0 ≤ c && c < (b.size : Int)

/-- Cell lookup; out-of-range coordinates read as empty. -/
def Board.at (b : Board) (r c : Int) : Cell :=
  if b.inBounds r c then ((b.cells.getD r.toNat []).getD c.toNat .empty)
  else .empty

/-- The 8 scan directions. -/
def directions : List (Int × Int) :=
  [(-1, -1), (-1, 0), (-1, 1), (0, -1), (0, 1), (1, -1), (1, 0), (1, 1)]

/-- Modelled from the spec: walk outward from a cell in one direction,
collecting the contiguous run of opposing pieces; the walk succeeds
(returning the run) exactly when it next lands on a same-side piece.
`fuel` bounds the walk by the board diameter. -/
def captureScan (b : Board) (side : Cell) :
    Nat → Int → Int → Int → Int → List (Int × Int) → Option (List (Int × Int))
  | 0, _, _, _, _, _ => none
  | fuel + 1, r, c, dr, dc, acc =>
    if !b.inBounds r c then none
    else if b.at r c = side.opponent then
      captureScan b side fuel (r + dr) (c + dc) dr dc (acc ++ [(r, c)])
    else if b.at r c = side then some acc
    else none

/-- The maximal run of opposing pieces flippable from (r, c) in
direction (dr, dc): the collected run when the scan is bounded by a
same-side piece, empty otherwise. -/
def flipRun (b : Board) (side : Cell) (r c dr dc : Int) : List (Int × Int) :=
  match captureScan b side (b.size + 2) (r + dr) (c + dc) dr dc [] with
  | some run => run
  | none => []

/-- Modelled from the spec: a move on an empty cell is legal iff
walking outward in some direction first passes over one or more
opposing pieces and then lands on a same-side piece, i.e. some
direction yields a non-empty flip run. -/
def isLegalMove (b : Board) (side : Cell) (r c : Int) : Bool :=
  side ≠ Cell.empty && b.inBounds r c && b.at r c = Cell.empty &&
    directions.any (fun d => !(flipRun b side r c d.1 d.2).isEmpty)

/-- Modelled from the spec: `legalMoves(board, side)` — every empty
cell whose placement is legal. -/
def legalMoves (b : Board) (side : Cell) : List (Int × Int) :=
  ((List.range b.size).map (Int.ofNat)).flatMap (fun r =>
    ((List.range b.size).map (Int.ofNat)).filterMap (fun c =>
      if isLegalMove b side r c then some (r, c) else none))

/-- All cells flipped by playing (r, c): the concatenation of the flip
runs of the 8 directions. -/
def flippedCells (b : Board) (side : Cell) (r c : Int) : List (Int × Int) :=
  directions.flatMap (fun d => flipRun b side r c d.1 d.2)

/-- Write one cell of the row-major grid. -/
def Board.set (b : Board) (r c : Int) (v : Cell) : Board :=
  ⟨b.size, b.cells.set r.toNat ((b.cells.getD r.toNat []).set c.toNat v)⟩

/-- Modelled from the spec: `applyMove(board, side, move)` places the
piece, flips the maximal runs in all 8 directions, and returns the new
board with the flipped cells; it fails (IllegalMoveError, here `none`)
when the move is not legal. -/
def applyMove (b : Board) (side : Cell) (r c : Int) :
    Option (Board × List (Int × Int)) :=
  if isLegalMove b side r c then
    let flips := flippedCells b side r c
    some (flips.foldl (fun bb p => bb.set p.1 p.2 side) (b.set r c side), flips)
  else none

/-! ## Concrete example data used by witnesses and counterexamples -/

/-- A configuration with a human Black seat and a bot White seat. -/
def humanBlackCfg : MatchConfig :=
  ⟨8, "human", none, "bot", some "random_player", 60, 1⟩

/-- A paused mid-game state where it is the (human) Black side's turn
and (2, 3) is a legal move. -/
def pausedGameState : GameState :=
  ⟨[], 0, 2, 2, [(2, 3)], false, -1, true, none⟩

/-- The same position, not paused. -/
def activeGameState : GameState :=
  ⟨[], 0, 2, 2, [(2, 3)], false, -1, false, none⟩

/-- Client state displaying the paused position. -/
def pausedClientState : ClientState :=
  ⟨some pausedGameState, some 5, "", true⟩

/-- Client state displaying the active position. -/
def activeClientState : ClientState :=
  ⟨some activeGameState, some 5, "", true⟩

/-- Form interactions making both seats human and dragging the
board-size slider to the odd value 7. -/
def oddFormEvents : List FormEvent :=
  [.setBoardSize 7, .setWhitePlayerType "human"]

/-- The configuration the form emits after `oddFormEvents`. -/
def oddConfig : MatchConfig :=
  ⟨7, "human", none, "human", none, 60, 1⟩

/-- Form interactions that only switch the White seat to human. -/
def humanHumanEvents : List FormEvent :=
  [.setWhitePlayerType "human"]

/-- The configuration the form emits after `humanHumanEvents`. -/
def humanHumanConfig : MatchConfig :=
  ⟨8, "human", none, "human", none, 60, 1⟩

/-- Form interactions selecting a bot for both seats. -/
def botBotEvents : List FormEvent :=
  [.setBlackPlayerType "bot", .setBlackBotName "alpha", .setWhiteBotName "beta"]

/-- Dev-mode environment served over https on localhost, with no Vite
URL variables set. -/
def devLocalhostHttpsEnv : NetEnv :=
  ⟨none, none, false, true, "https:", "localhost:5173", "localhost"⟩

/-- Environment with both Vite URL variables set explicitly. -/
def explicitEnv : NetEnv :=
  ⟨some "http://api.example.com", some "ws://api.example.com", false, true,
   "https:", "app.example.com", "app.example.com"⟩

/-- Production environment on https without Vite URL variables. -/
def prodHttpsEnv : NetEnv :=
  ⟨none, none, true, false, "https:", "app.example.com", "app.example.com"⟩

/-- Dev-mode environment reached from a remote (non-localhost) host. -/
def remoteDevEnv : NetEnv :=
  ⟨none, none, false, true, "http:", "192.168.1.7:5173", "192.168.1.7"⟩

/-- An operation that fails on its first attempt and succeeds on its
second. -/
def retryOpExample : Nat → Except String Nat :=
  fun n => if n = 0 then Except.error "boom" else Except.ok 7

/-- An empty game state payload used in trace examples. -/
def gameStateExample : GameState :=
  ⟨[], 0, 2, 2, [], false, -1, false, some "Game start"⟩

/-- Shorthand for the empty-cell row of a 4×4 board. -/
def emptyRow4 : List Cell :=
  [.empty, .empty, .empty, .empty]

/-- The standard 4×4 initial Othello board: the four centre cells
seeded White/Black/Black/White. -/
def board4 : Board :=
  ⟨4, [emptyRow4,
       [.empty, .white, .black, .empty],
       [.empty, .black, .white, .empty],
       emptyRow4]⟩

/-! ## Theorems -/

/-- C6: on `match_end` the client displays the server-supplied message
when present (non-empty), otherwise the text determined by `winner`:
`Draw!` for -1, `Black wins!` for 0, `White wins!` for 1; the fallback
text is always one of exactly these three. -/
theorem matchEnd_winner_display :
    (∀ w s, matchEndMessage w (some s) = if s = "" then winnerText w else s) ∧
    (∀ w, matchEndMessage w none = winnerText w) ∧
    winnerText (-1) = "Draw!" ∧ winnerText 0 = "Black wins!" ∧
    winnerText 1 = "White wins!" ∧
    (∀ w, winnerText w = "Draw!" ∨ winnerText w = "Black wins!" ∨
      winnerText w = "White wins!") := by
  refine ⟨fun w s => rfl, fun w => rfl, rfl, rfl, by decide, fun w => ?_⟩
  unfold winnerText
  by_cases h1 : w = -1
  · simp [h1]
  · by_cases h0 : w = 0 <;> simp [h0, h1]

/-- C7: a server message whose type is none of the six handled ones
leaves the entire client state unchanged and invokes no callback, while
each of the six typed messages is handled by its own branch with that
branch's characteristic effect. -/
theorem handleMessage_unknown_frame :
    (∀ hC hE st ty,
      handleWebSocketMessage hC hE st (ServerMsg.other ty) = (st, [])) ∧
    (∀ hC hE st mid,
      (handleWebSocketMessage hC hE st (ServerMsg.matchCreated mid)).1.matchId = some mid ∧
      (handleWebSocketMessage hC hE st (ServerMsg.matchCreated mid)).1.message = "Match created") ∧
    (∀ hC hE st gs,
      (handleWebSocketMessage hC hE st (ServerMsg.gameState gs)).1.gameState = some gs) ∧
    (∀ hC hE st r c,
      (handleWebSocketMessage hC hE st (ServerMsg.movePlayed r c)).1.message =
        "Move played: (" ++ toString r ++ ", " ++ toString c ++ ")") ∧
    (∀ hC hE st w m,
      (handleWebSocketMessage hC hE st (ServerMsg.matchEnd w m)).1.message =
        matchEndMessage w m) ∧
    (∀ hC hE st m,
      (handleWebSocketMessage hC hE st (ServerMsg.errorMsg m)).1.message = "Error: " ++ m) ∧
    (∀ hC hE st m,
      (handleWebSocketMessage hC hE st (ServerMsg.botError m)).1.message = "Bot Error: " ++ m) := by
  refine ⟨fun hC hE st ty => rfl, fun hC hE st mid => ⟨rfl, rfl⟩,
    fun hC hE st gs => ?_, fun hC hE st r c => rfl, fun hC hE st w m => rfl,
    fun hC hE st m => rfl, fun hC hE st m => rfl⟩
  unfold handleWebSocketMessage
  by_cases h : (!st.initReported && hC) = true <;> simp [h]

/-- C1 (counterexample to the claim as stated): while the displayed
match is paused (and not over, with a human seat to move and a legal
clicked cell), the click handler still sends a `play_move` message —
the source checks `game_over` but never `paused`. -/
theorem cellClick_paused_counterexample :
    (handleCellClick (some humanBlackCfg) pausedClientState true 2 3).2 =
      some ⟨some 5, 2, 3⟩ ∧
    pausedGameState.paused = true ∧
    pausedClientState.gameState = some pausedGameState := by
  decide

/-- C1 (amended): a cell click sends a `play_move` message only if a
match is displayed, it is not over, the seat to move is configured
human, and the clicked cell is in the current legal-move set (the
message carrying the stored match id and the clicked coordinates); and
the handler never changes the stored game state or match id. -/
theorem handleCellClick_only_if (cfg : Option MatchConfig) (st : ClientState)
    (wsOpen : Bool) (row col : Int) :
    (∀ m, (handleCellClick cfg st wsOpen row col).2 = some m →
      ∃ gs, st.gameState = some gs ∧ gs.game_over = false ∧
        cfg.map (fun c =>
          if gs.current_player = 0 then c.black_player_type
          else c.white_player_type) = some "human" ∧
        gs.valid_moves.any (fun p => p.1 == row && p.2 == col) = true ∧
        m = ⟨st.matchId, row, col⟩) ∧
    (handleCellClick cfg st wsOpen row col).1.gameState = st.gameState ∧
    (handleCellClick cfg st wsOpen row col).1.matchId = st.matchId := by
  cases hgs : st.gameState with
  | none =>
    have hred : handleCellClick cfg st wsOpen row col = (st, none) := by
      unfold handleCellClick; rw [hgs]
    rw [hred]
    exact ⟨fun m hm => by simp at hm, hgs, rfl⟩
  | some gs =>
    by_cases hgo : (gs.game_over || !wsOpen) = true
    · have hred : handleCellClick cfg st wsOpen row col = (st, none) := by
        unfold handleCellClick; rw [hgs]; simp [hgo]
      rw [hred]
      exact ⟨fun m hm => by simp at hm, hgs, rfl⟩
    · by_cases hcpt : cfg.map (fun c =>
          if gs.current_player = 0 then c.black_player_type
          else c.white_player_type) = some "human"
      · by_cases hval : gs.valid_moves.any (fun p => p.1 == row && p.2 == col) = true
        · have hred : handleCellClick cfg st wsOpen row col =
              (st, some ⟨st.matchId, row, col⟩) := by
            unfold handleCellClick; rw [hgs]; simp [hgo, hcpt, hval]
          rw [hred]
          refine ⟨fun m hm => ⟨gs, rfl, ?_, hcpt, hval, ?_⟩, hgs, rfl⟩
          · simp only [Bool.or_eq_true, not_or, Bool.not_eq_true] at hgo
            exact hgo.1
          · simp only [Option.some.injEq] at hm
            exact hm.symm
        · have hred : handleCellClick cfg st wsOpen row col =
              ({ st with message := "Invalid move!" }, none) := by
            unfold handleCellClick; rw [hgs]; simp [hgo, hcpt, hval]
          rw [hred]
          exact ⟨fun m hm => by simp at hm, hgs, rfl⟩
      · have hred : handleCellClick cfg st wsOpen row col = (st, none) := by
          unfold handleCellClick; rw [hgs]; simp [hgo, hcpt]
        rw [hred]
        exact ⟨fun m hm => by simp at hm, hgs, rfl⟩

/-- C1 (witness): a click on the legal cell (2, 3) of an active match
with a human Black to move does send the move, and the guard theorem
instantiates there. -/
theorem handleCellClick_only_if_witness :
    (handleCellClick (some humanBlackCfg) activeClientState true 2 3).2 =
      some ⟨some 5, 2, 3⟩ ∧
    (∃ gs, activeClientState.gameState = some gs ∧ gs.game_over = false ∧
      (some humanBlackCfg).map (fun c =>
        if gs.current_player = 0 then c.black_player_type
        else c.white_player_type) = some "human" ∧
      gs.valid_moves.any (fun p => p.1 == (2 : Int) && p.2 == (3 : Int)) = true ∧
      (⟨activeClientState.matchId, 2, 3⟩ : PlayMoveMsg) = ⟨activeClientState.matchId, 2, 3⟩) := by
  refine ⟨by decide, ?_⟩
  exact (handleCellClick_only_if (some humanBlackCfg) activeClientState true 2 3).1
    ⟨activeClientState.matchId, 2, 3⟩ (by decide)

/-- Every form interaction keeps the slider value within `[4, 100]`. -/
theorem foldl_boardSize_bounds (evs : List FormEvent) (st : MenuState)
    (h4 : 4 ≤ st.boardSize) (h100 : st.boardSize ≤ 100) :
    4 ≤ (evs.foldl applyFormEvent st).boardSize ∧
      (evs.foldl applyFormEvent st).boardSize ≤ 100 := by
  induction evs generalizing st with
  | nil => exact ⟨h4, h100⟩
  | cons e rest ih =>
    cases e with
    | setBoardSize v =>
      refine ih _ ?_ ?_ <;> · simp only [applyFormEvent, clampSlider]; omega
    | setBlackPlayerType s => exact ih _ h4 h100
    | setBlackBotName s => exact ih _ h4 h100
    | setWhitePlayerType s => exact ih _ h4 h100
    | setWhiteBotName s => exact ih _ h4 h100
    | setInitTimeout v => exact ih _ h4 h100
    | setMoveTimeout v => exact ih _ h4 h100

/-- Interactions that never touch the initialization-timeout input
leave it at its current value. -/
theorem foldl_initTimeout_const (evs : List FormEvent) (st : MenuState)
    (h : ∀ e ∈ evs, e.touchesInitTimeout = false) :
    (evs.foldl applyFormEvent st).initTimeout = st.initTimeout := by
  induction evs generalizing st with
  | nil => rfl
  | cons e rest ih =>
    have he := h e (List.mem_cons_self e rest)
    have hr : ∀ x ∈ rest, x.touchesInitTimeout = false :=
      fun x hx => h x (List.mem_cons_of_mem e hx)
    cases e with
    | setInitTimeout v => simp [FormEvent.touchesInitTimeout] at he
    | setBoardSize v => rw [List.foldl_cons, ih _ hr]; rfl
    | setBlackPlayerType s => rw [List.foldl_cons, ih _ hr]; rfl
    | setBlackBotName s => rw [List.foldl_cons, ih _ hr]; rfl
    | setWhitePlayerType s => rw [List.foldl_cons, ih _ hr]; rfl
    | setWhiteBotName s => rw [List.foldl_cons, ih _ hr]; rfl
    | setMoveTimeout v => rw [List.foldl_cons, ih _ hr]; rfl

/-- Interactions that never touch the move-timeout input leave it at
its current value. -/
theorem foldl_moveTimeout_const (evs : List FormEvent) (st : MenuState)
    (h : ∀ e ∈ evs, e.touchesMoveTimeout = false) :
    (evs.foldl applyFormEvent st).moveTimeout = st.moveTimeout := by
  induction evs generalizing st with
  | nil => rfl
  | cons e rest ih =>
    have he := h e (List.mem_cons_self e rest)
    have hr : ∀ x ∈ rest, x.touchesMoveTimeout = false :=
      fun x hx => h x (List.mem_cons_of_mem e hx)
    cases e with
    | setMoveTimeout v => simp [FormEvent.touchesMoveTimeout] at he
    | setBoardSize v => rw [List.foldl_cons, ih _ hr]; rfl
    | setBlackPlayerType s => rw [List.foldl_cons, ih _ hr]; rfl
    | setBlackBotName s => rw [List.foldl_cons, ih _ hr]; rfl
    | setWhitePlayerType s => rw [List.foldl_cons, ih _ hr]; rfl
    | setWhiteBotName s => rw [List.foldl_cons, ih _ hr]; rfl
    | setInitTimeout v => rw [List.foldl_cons, ih _ hr]; rfl

/-- A config the form emits copies the form state's board size and
timeouts verbatim. -/
theorem handleStartGame_fields (st : MenuState) (cfg : MatchConfig)
    (h : handleStartGame st = some cfg) :
    cfg.board_size = st.boardSize ∧ cfg.init_timeout = st.initTimeout ∧
      cfg.move_timeout = st.moveTimeout ∧
      cfg.black_player_type = st.blackPlayerType ∧
      cfg.white_player_type = st.whitePlayerType ∧
      cfg.black_bot_name =
        (if st.blackPlayerType = "bot" then some st.blackBotName else none) ∧
      cfg.white_bot_name =
        (if st.whitePlayerType = "bot" then some st.whiteBotName else none) := by
  unfold handleStartGame at h
  by_cases h1 : (st.blackPlayerType = "bot" && st.blackBotName = "") = true
  · rw [if_pos h1] at h
    exact absurd h (by simp)
  · rw [if_neg h1] at h
    by_cases h2 : (st.whitePlayerType = "bot" && st.whiteBotName = "") = true
    · rw [if_pos h2] at h
      exact absurd h (by simp)
    · rw [if_neg h2] at h
      cases h
      exact ⟨rfl, rfl, rfl, rfl, rfl, rfl, rfl⟩

/-- C3 (counterexample to the claim as stated): the board-size slider
(min 4, max 100, integer step) does not enforce evenness, so the form
emits a config with the odd board size 7. -/
theorem boardSize_even_counterexample :
    handleStartGame (runForm oddFormEvents) = some oddConfig ∧
    oddConfig.board_size = 7 ∧ ¬ (2 ∣ oddConfig.board_size) := by
  refine ⟨by decide, rfl, by decide⟩

/-- C3 (amended): every config the game-setup form emits has a board
size in `[4, 100]` (an integer, not necessarily even), an
initialization timeout that defaults to 60 seconds, and a move timeout
that defaults to 1 second (the defaults hold whenever the corresponding
input was never edited). -/
theorem menu_config_bounds (evs : List FormEvent) (cfg : MatchConfig)
    (h : handleStartGame (runForm evs) = some cfg) :
    4 ≤ cfg.board_size ∧ cfg.board_size ≤ 100 ∧
    ((∀ e ∈ evs, e.touchesInitTimeout = false) → cfg.init_timeout = 60) ∧
    ((∀ e ∈ evs, e.touchesMoveTimeout = false) → cfg.move_timeout = 1) := by
  obtain ⟨hb, hi, hm, -⟩ := handleStartGame_fields _ _ h
  have hbound := foldl_boardSize_bounds evs initialMenuState (by decide) (by decide)
  refine ⟨hb ▸ hbound.1, hb ▸ hbound.2, fun hno => ?_, fun hno => ?_⟩
  · rw [hi]
    exact foldl_initTimeout_const evs initialMenuState hno
  · rw [hm]
    exact foldl_moveTimeout_const evs initialMenuState hno

/-- C3 (witness): switching the White seat to human and starting the
game yields a config with board size 8 and default timeouts, matching
the amended bounds. -/
theorem menu_config_bounds_witness :
    handleStartGame (runForm humanHumanEvents) = some humanHumanConfig ∧
    (4 ≤ humanHumanConfig.board_size ∧ humanHumanConfig.board_size ≤ 100 ∧
      ((∀ e ∈ humanHumanEvents, e.touchesInitTimeout = false) →
        humanHumanConfig.init_timeout = 60) ∧
      ((∀ e ∈ humanHumanEvents, e.touchesMoveTimeout = false) →
        humanHumanConfig.move_timeout = 1)) :=
  ⟨by decide, menu_config_bounds humanHumanEvents humanHumanConfig (by decide)⟩

/-- C4: every `create_match` message sent in `ws.onopen` for a config
the form emitted is tagged `create_match` and carries a config object
with exactly the seven protocol fields, in order. -/
theorem create_match_config_keys (evs : List FormEvent) (cfg : MatchConfig)
    (h : handleStartGame (runForm evs) = some cfg) :
    (createMatchMessage cfg).1 = "create_match" ∧
    (createMatchMessage cfg).2.map Prod.fst = protocolConfigKeys :=
  ⟨rfl, rfl⟩

/-- C4 (witness): instantiated at the config emitted after switching
the White seat to human. -/
theorem create_match_config_keys_witness :
    (createMatchMessage humanHumanConfig).1 = "create_match" ∧
    (createMatchMessage humanHumanConfig).2.map Prod.fst = protocolConfigKeys :=
  create_match_config_keys humanHumanEvents humanHumanConfig (by decide)

/-- C5: a config is emitted only with a non-empty bot name for every
bot seat, and with a `null` bot name for every human seat. -/
theorem startGame_bot_name_valid (st : MenuState) (cfg : MatchConfig)
    (h : handleStartGame st = some cfg) :
    (cfg.black_player_type = "bot" →
      ∃ s, cfg.black_bot_name = some s ∧ s ≠ "") ∧
    (cfg.black_player_type = "human" → cfg.black_bot_name = none) ∧
    (cfg.white_player_type = "bot" →
      ∃ s, cfg.white_bot_name = some s ∧ s ≠ "") ∧
    (cfg.white_player_type = "human" → cfg.white_bot_name = none) := by
  unfold handleStartGame at h
  by_cases h1 : (st.blackPlayerType = "bot" && st.blackBotName = "") = true
  · rw [if_pos h1] at h
    exact absurd h (by simp)
  · rw [if_neg h1] at h
    by_cases h2 : (st.whitePlayerType = "bot" && st.whiteBotName = "") = true
    · rw [if_pos h2] at h
      exact absurd h (by simp)
    · rw [if_neg h2] at h
      simp only [Bool.and_eq_true, decide_eq_true_eq, not_and] at h1 h2
      cases h
      refine ⟨fun hb => ?_, fun hh => ?_, fun hb => ?_, fun hh => ?_⟩
      · have hb2 : st.blackPlayerType = "bot" := hb
        refine ⟨st.blackBotName, ?_, h1 hb2⟩
        show (if st.blackPlayerType = "bot" then some st.blackBotName else none)
          = some st.blackBotName
        simp [hb2]
      · have hh2 : st.blackPlayerType = "human" := hh
        show (if st.blackPlayerType = "bot" then some st.blackBotName else none) = none
        simp [hh2]
      · have hb2 : st.whitePlayerType = "bot" := hb
        refine ⟨st.whiteBotName, ?_, h2 hb2⟩
        show (if st.whitePlayerType = "bot" then some st.whiteBotName else none)
          = some st.whiteBotName
        simp [hb2]
      · have hh2 : st.whitePlayerType = "human" := hh
        show (if st.whitePlayerType = "bot" then some st.whiteBotName else none) = none
        simp [hh2]

/-- C5 (witness): with both seats set to bots named `alpha` and `beta`,
the emitted config carries those non-empty names. -/
theorem startGame_bot_name_valid_witness :
    (∃ s, (MatchConfig.mk 8 "bot" (some "alpha") "bot" (some "beta") 60 1).black_bot_name
        = some s ∧ s ≠ "") ∧
    (∃ s, (MatchConfig.mk 8 "bot" (some "alpha") "bot" (some "beta") 60 1).white_bot_name
        = some s ∧ s ≠ "") := by
  have h := startGame_bot_name_valid (runForm botBotEvents)
    (MatchConfig.mk 8 "bot" (some "alpha") "bot" (some "beta") 60 1) (by decide)
  exact ⟨h.1 rfl, h.2.2.1 rfl⟩

/-- C9 (counterexample to the claim as stated): in dev mode on
localhost served over https, `getWsUrl` falls through to the fixed
`ws://localhost:8000` default, so its scheme is not `wss:` although the
page protocol is `https:`. -/
theorem getWsUrl_wss_counterexample :
    devLocalhostHttpsEnv.protocol = "https:" ∧
    getWsUrl devLocalhostHttpsEnv = "ws://localhost:8000" ∧
    "wss:".data.isPrefixOf (getWsUrl devLocalhostHttpsEnv).data = false := by
  refine ⟨rfl, by decide, by decide⟩

/-- C9 (amended): `getApiUrl` and `getWsUrl` resolve by the same fixed
priority — the truthy environment variable; else protocol/host in
production; else hostname:8000 in dev mode from a non-localhost page;
else the localhost:8000 default — and in the two branches that build a
WebSocket URL from the page location the scheme is `wss:` exactly when
the page protocol is `https:`, while the localhost default is always
`ws:`. -/
theorem network_url_resolution (env : NetEnv) :
    (∀ s, env.viteApiUrl = some s → s ≠ "" → getApiUrl env = s) ∧
    (∀ s, env.viteWsUrl = some s → s ≠ "" → getWsUrl env = s) ∧
    (envTruthy env.viteApiUrl = false → env.isProd = true →
      getApiUrl env = env.protocol ++ "//" ++ env.host) ∧
    (envTruthy env.viteWsUrl = false → env.isProd = true →
      getWsUrl env = wsScheme env.protocol ++ "//" ++ env.host) ∧
    (envTruthy env.viteApiUrl = false → env.isProd = false → env.isDev = true →
      isLocalhost env = false →
      getApiUrl env = env.protocol ++ "//" ++ env.hostname ++ ":" ++ DEFAULT_BACKEND_PORT) ∧
    (envTruthy env.viteWsUrl = false → env.isProd = false → env.isDev = true →
      isLocalhost env = false →
      getWsUrl env = wsScheme env.protocol ++ "//" ++ env.hostname ++ ":" ++
        DEFAULT_BACKEND_PORT) ∧
    (envTruthy env.viteApiUrl = false → env.isProd = false →
      (env.isDev = false ∨ isLocalhost env = true) →
      getApiUrl env = "http://localhost:8000") ∧
    (envTruthy env.viteWsUrl = false → env.isProd = false →
      (env.isDev = false ∨ isLocalhost env = true) →
      getWsUrl env = "ws://localhost:8000") ∧
    (wsScheme env.protocol = "wss:" ↔ env.protocol = "https:") := by
  refine ⟨fun s hs hne => ?_, fun s hs hne => ?_, fun hv hp => ?_, fun hv hp => ?_,
    fun hv hp hd hl => ?_, fun hv hp hd hl => ?_, fun hv hp hd => ?_,
    fun hv hp hd => ?_, ?_⟩
  · simp [getApiUrl, envTruthy, hs, hne]
  · simp [getWsUrl, envTruthy, hs, hne]
  · simp [getApiUrl, hv, hp]
  · simp [getWsUrl, hv, hp]
  · simp [getApiUrl, hv, hp, hd, hl]
  · simp [getWsUrl, hv, hp, hd, hl]
  · rcases hd with hdev | hloc
    · simp only [getApiUrl, hv, hp, hdev, Bool.false_and, Bool.false_eq_true,
        if_false, Bool.and_eq_true]
      decide
    · simp only [getApiUrl, hv, hp, hloc, Bool.not_true, Bool.and_false,
        Bool.false_eq_true, if_false]
      decide
  · rcases hd with hdev | hloc
    · simp only [getWsUrl, hv, hp, hdev, Bool.false_and, Bool.false_eq_true,
        if_false, Bool.and_eq_true]
      decide
    · simp only [getWsUrl, hv, hp, hloc, Bool.not_true, Bool.and_false,
        Bool.false_eq_true, if_false]
      decide
  · constructor
    · intro h
      by_contra hne
      simp [wsScheme, hne] at h
    · intro h
      simp [wsScheme, h]

/-- C9 (witness): the resolution theorem instantiated at an explicit
environment, a production https environment, a remote-dev environment,
and the localhost-default environment. -/
theorem network_url_resolution_witness :
    getApiUrl explicitEnv = "http://api.example.com" ∧
    getWsUrl prodHttpsEnv = wsScheme prodHttpsEnv.protocol ++ "//" ++ prodHttpsEnv.host ∧
    getApiUrl remoteDevEnv =
      remoteDevEnv.protocol ++ "//" ++ remoteDevEnv.hostname ++ ":8000" ∧
    getWsUrl devLocalhostHttpsEnv = "ws://localhost:8000" := by
  refine ⟨?_, ?_, ?_, ?_⟩
  · exact (network_url_resolution explicitEnv).1 "http://api.example.com" rfl (by decide)
  · exact (network_url_resolution prodHttpsEnv).2.2.2.1 rfl rfl
  · exact (network_url_resolution remoteDevEnv).2.2.2.2.1 rfl rfl rfl (by decide)
  · exact (network_url_resolution devLocalhostHttpsEnv).2.2.2.2.2.2.2.1 rfl rfl
      (Or.inr (by decide))

/-- C8: `withRetry` makes at most 3 attempts; the first successful
attempt's value is returned with no further attempts; every failed
attempt except the last is followed by a `1000 * 2 ^ attempt`
millisecond delay; and when all attempts fail the last error is
rethrown. -/
theorem withRetry_spec {ε α : Type} (op : Nat → Except ε α) :
    (withRetry op).attempts ≤ 3 ∧
    (∀ k a, k < 3 → op k = Except.ok a →
      (∀ j, j < k → ∃ e, op j = Except.error e) →
      (withRetry op).result = Except.ok a ∧ (withRetry op).attempts = k + 1 ∧
      (withRetry op).delays =
        (List.range k).map (fun i => RETRY_DELAY_BASE * 2 ^ i)) ∧
    (∀ e0 e1 e2, op 0 = Except.error e0 → op 1 = Except.error e1 →
      op 2 = Except.error e2 →
      (withRetry op).result = Except.error (some e2) ∧
      (withRetry op).attempts = 3 ∧
      (withRetry op).delays = [RETRY_DELAY_BASE, RETRY_DELAY_BASE * 2]) := by
  refine ⟨?_, ?_, ?_⟩
  · cases h0 : op 0 with
    | ok a => simp [withRetry, MAX_RETRIES, withRetryAux, h0]
    | error e0 =>
      cases h1 : op 1 with
      | ok a => simp [withRetry, MAX_RETRIES, withRetryAux, h0, h1]
      | error e1 =>
        cases h2 : op 2 with
        | ok a => simp [withRetry, MAX_RETRIES, withRetryAux, h0, h1, h2]
        | error e2 => simp [withRetry, MAX_RETRIES, withRetryAux, h0, h1, h2]
  · intro k a hk hok hprev
    interval_cases k
    · refine ⟨?_, ?_, ?_⟩ <;> simp [withRetry, MAX_RETRIES, withRetryAux, hok]
    · obtain ⟨e0, h0⟩ := hprev 0 (by omega)
      refine ⟨?_, ?_, ?_⟩ <;>
        simp [withRetry, MAX_RETRIES, withRetryAux, h0, hok, RETRY_DELAY_BASE,
          List.range_succ]
    · obtain ⟨e0, h0⟩ := hprev 0 (by omega)
      obtain ⟨e1, h1⟩ := hprev 1 (by omega)
      refine ⟨?_, ?_, ?_⟩ <;>
        simp [withRetry, MAX_RETRIES, withRetryAux, h0, h1, hok,
          RETRY_DELAY_BASE, List.range_succ]
  · intro e0 e1 e2 h0 h1 h2
    refine ⟨?_, ?_, ?_⟩ <;>
      simp [withRetry, MAX_RETRIES, withRetryAux, h0, h1, h2, RETRY_DELAY_BASE]

/-- C8 (witness): for an operation failing once and then succeeding,
`withRetry` returns the second attempt's value after one 1000 ms delay. -/
theorem withRetry_spec_witness :
    (withRetry retryOpExample).result = Except.ok 7 ∧
    (withRetry retryOpExample).attempts = 1 + 1 ∧
    (withRetry retryOpExample).delays =
      (List.range 1).map (fun i => RETRY_DELAY_BASE * 2 ^ i) :=
  (withRetry_spec retryOpExample).2.1 1 7 (by omega) rfl
    (fun j hj => by
      interval_cases j
      exact ⟨"boom", rfl⟩)

/-- Membership in `legalMoves` implies the legality test holds at the
move's coordinates. -/
theorem mem_legalMoves_isLegal {b : Board} {side : Cell} {r c : Int}
    (h : (r, c) ∈ legalMoves b side) : isLegalMove b side r c = true := by
  unfold legalMoves at h
  simp only [List.mem_flatMap, List.mem_filterMap, List.mem_map,
    List.mem_range] at h
  obtain ⟨r0, -, c0, -, hc⟩ := h
  by_cases hleg : isLegalMove b side r0 c0 = true
  · rw [if_pos hleg] at hc
    obtain ⟨hr, hcc⟩ := Prod.mk.injEq .. ▸ Option.some.inj hc
    rw [← hr, ← hcc]
    exact hleg
  · rw [if_neg hleg] at hc
    exact absurd hc (by simp)

/-- C2: every move in `legalMoves(board, side)` succeeds under
`applyMove` and flips at least one opposing piece — no legal move is a
zero-flip no-op. -/
theorem legalMoves_flip (b : Board) (side : Cell) (r c : Int)
    (h : (r, c) ∈ legalMoves b side) :
    ∃ b2 flips, applyMove b side r c = some (b2, flips) ∧ flips ≠ [] := by
  have hleg := mem_legalMoves_isLegal h
  refine ⟨_, flippedCells b side r c, by rw [applyMove, if_pos hleg], ?_⟩
  unfold isLegalMove at hleg
  simp only [Bool.and_eq_true, List.any_eq_true, Bool.not_eq_true',
    List.isEmpty_eq_false] at hleg
  obtain ⟨-, d, hd, hrun⟩ := hleg
  obtain ⟨x, hx⟩ : ∃ x, x ∈ flipRun b side r c d.1 d.2 := by
    cases hr : flipRun b side r c d.1 d.2 with
    | nil => exact absurd hr hrun
    | cons y ys => exact ⟨y, hr ▸ List.mem_cons_self y ys⟩
  have hmem : x ∈ flippedCells b side r c :=
    List.mem_flatMap.mpr ⟨d, hd, hx⟩
  intro hnil
  rw [hnil] at hmem
  exact absurd hmem (List.not_mem_nil x)

/-- C2 (witness): on the seeded 4×4 board, (0, 1) is legal for Black
and applying it flips a piece. -/
theorem legalMoves_flip_witness :
    ((0 : Int), (1 : Int)) ∈ legalMoves board4 Cell.black ∧
    ∃ b2 flips, applyMove board4 Cell.black 0 1 = some (b2, flips) ∧
      flips ≠ [] :=
  ⟨by decide, legalMoves_flip board4 Cell.black 0 1 (by decide)⟩

/-- Unfolding equation for `processTrace` on a cons. -/
theorem processTrace_cons (hC hE : Bool) (st : ClientState) (m : ServerMsg)
    (rest : List ServerMsg) :
    processTrace hC hE st (m :: rest) =
      ((processTrace hC hE (handleWebSocketMessage hC hE st m).1 rest).1,
       (handleWebSocketMessage hC hE st m).2 ++
         (processTrace hC hE (handleWebSocketMessage hC hE st m).1 rest).2) :=
  rfl

/-- Trace processing splits over list append. -/
theorem processTrace_append (hC hE : Bool) (st : ClientState)
    (xs ys : List ServerMsg) :
    processTrace hC hE st (xs ++ ys) =
      ((processTrace hC hE (processTrace hC hE st xs).1 ys).1,
       (processTrace hC hE st xs).2 ++
         (processTrace hC hE (processTrace hC hE st xs).1 ys).2) := by
  induction xs generalizing st with
  | nil => simp [processTrace]
  | cons m rest ih =>
    rw [List.cons_append, processTrace_cons, ih, processTrace_cons]
    simp [List.append_assoc]

/-- Once initialization has been reported, a message-handler step keeps
the flag set, emits no completion event, and emits no error event. -/
theorem handleMsg_initReported_true (hC hE : Bool) (st : ClientState)
    (m : ServerMsg) (h : st.initReported = true) :
    (handleWebSocketMessage hC hE st m).1.initReported = true ∧
    InitEvent.complete ∉ (handleWebSocketMessage hC hE st m).2 ∧
    (∀ s, InitEvent.errorEv s ∉ (handleWebSocketMessage hC hE st m).2) := by
  cases m <;> simp [handleWebSocketMessage, h]

/-- Once initialization has been reported, a whole trace keeps the flag
set and emits neither completion nor error events. -/
theorem trace_initReported_true (hC hE : Bool) (msgs : List ServerMsg)
    (st : ClientState) (h : st.initReported = true) :
    (processTrace hC hE st msgs).1.initReported = true ∧
    InitEvent.complete ∉ (processTrace hC hE st msgs).2 ∧
    (∀ s, InitEvent.errorEv s ∉ (processTrace hC hE st msgs).2) := by
  induction msgs generalizing st with
  | nil => simp [processTrace, h]
  | cons m rest ih =>
    obtain ⟨h1, h2, h3⟩ := handleMsg_initReported_true hC hE st m h
    obtain ⟨h4, h5, h6⟩ := ih _ h1
    rw [processTrace_cons]
    refine ⟨h4, ?_, fun s => ?_⟩
    · simp only [List.mem_append]
      exact fun hc => hc.elim h2 h5
    · simp only [List.mem_append]
      exact fun hc => hc.elim (h3 s) (h6 s)

/-- A step on a non-`game_state` message preserves the
initialization-reported flag and emits no completion event. -/
theorem handleMsg_not_gameState (hC hE : Bool) (st : ClientState)
    (m : ServerMsg) (h : ServerMsg.isGameState m = false) :
    (handleWebSocketMessage hC hE st m).1.initReported = st.initReported ∧
    InitEvent.complete ∉ (handleWebSocketMessage hC hE st m).2 := by
  cases m <;> simp_all [handleWebSocketMessage, ServerMsg.isGameState]

/-- A trace without `game_state` messages preserves the flag and never
completes initialization. -/
theorem trace_no_gameState (hC hE : Bool) (msgs : List ServerMsg)
    (st : ClientState) (h : ∀ m ∈ msgs, ServerMsg.isGameState m = false) :
    (processTrace hC hE st msgs).1.initReported = st.initReported ∧
    InitEvent.complete ∉ (processTrace hC hE st msgs).2 := by
  induction msgs generalizing st with
  | nil => simp [processTrace]
  | cons m rest ih =>
    have hm := h m (List.mem_cons_self m rest)
    have hr : ∀ x ∈ rest, ServerMsg.isGameState x = false :=
      fun x hx => h x (List.mem_cons_of_mem m hx)
    obtain ⟨h1, h2⟩ := handleMsg_not_gameState hC hE st m hm
    obtain ⟨h3, h4⟩ := ih ((handleWebSocketMessage hC hE st m).1) hr
    rw [processTrace_cons]
    refine ⟨h3.trans h1, ?_⟩
    simp only [List.mem_append]
    exact fun hc => hc.elim h2 h4

/-- In any trace, the completion callback fires at most once (not at
all when the flag is already set). -/
theorem trace_complete_count (hC hE : Bool) (msgs : List ServerMsg)
    (st : ClientState) :
    (processTrace hC hE st msgs).2.count InitEvent.complete ≤
      (if st.initReported then 0 else 1) := by
  induction msgs generalizing st with
  | nil => simp [processTrace]
  | cons m rest ih =>
    rw [processTrace_cons, List.count_append]
    cases m with
    | gameState gs =>
      by_cases hc : (!st.initReported && hC) = true
      · have hst : st.initReported = false := by
          have := (Bool.and_eq_true _ _).mp hc
          simpa using this.1
        have hstep1 :
            (handleWebSocketMessage hC hE st (ServerMsg.gameState gs)).1.initReported
              = true := by
          simp [handleWebSocketMessage, hc]
        have hstep2 :
            (handleWebSocketMessage hC hE st (ServerMsg.gameState gs)).2.count
              InitEvent.complete = 1 := by
          simp [handleWebSocketMessage, hc]
        have htail := ih (handleWebSocketMessage hC hE st (ServerMsg.gameState gs)).1
        rw [hstep1] at htail
        simp only [if_true] at htail
        rw [hstep2, hst]
        simp only [Bool.false_eq_true, if_false]
        omega
      · have hstep1 :
            (handleWebSocketMessage hC hE st (ServerMsg.gameState gs)).1.initReported
              = st.initReported := by
          simp [handleWebSocketMessage, hc]
        have hstep2 :
            (handleWebSocketMessage hC hE st (ServerMsg.gameState gs)).2.count
              InitEvent.complete = 0 := by
          simp [handleWebSocketMessage, hc]
        have htail := ih (handleWebSocketMessage hC hE st (ServerMsg.gameState gs)).1
        rw [hstep1] at htail
        rw [hstep2]
        omega
    | matchCreated mid =>
      have htail := ih (handleWebSocketMessage hC hE st (ServerMsg.matchCreated mid)).1
      simp only [handleWebSocketMessage] at htail ⊢
      simpa using htail
    | movePlayed r c =>
      have htail := ih (handleWebSocketMessage hC hE st (ServerMsg.movePlayed r c)).1
      simp only [handleWebSocketMessage] at htail ⊢
      simpa using htail
    | matchEnd w mm =>
      have htail := ih (handleWebSocketMessage hC hE st (ServerMsg.matchEnd w mm)).1
      simp only [handleWebSocketMessage] at htail ⊢
      simpa using htail
    | errorMsg mm =>
      have htail := ih (handleWebSocketMessage hC hE st (ServerMsg.errorMsg mm)).1
      simp only [handleWebSocketMessage] at htail ⊢
      by_cases he : (hE && !st.initReported) = true <;> simp [he] <;> simpa using htail
    | botError mm =>
      have htail := ih (handleWebSocketMessage hC hE st (ServerMsg.botError mm)).1
      simp only [handleWebSocketMessage] at htail ⊢
      by_cases he : (hE && !st.initReported) = true <;> simp [he] <;> simpa using htail
    | other ty =>
      have htail := ih (handleWebSocketMessage hC hE st (ServerMsg.other ty)).1
      simp only [handleWebSocketMessage] at htail ⊢
      simpa using htail

/-- C10: on one connection, the initialization-complete callback fires
at most once in any trace; with the callback installed it fires exactly
while the first `game_state` message is processed, and no later
`error`/`bot_error` message invokes the initialization-error callback
after it has fired. -/
theorem initComplete_protocol :
    (∀ (hC hE : Bool) (msgs : List ServerMsg),
      (processTrace hC hE initialClientState msgs).2.count InitEvent.complete ≤ 1) ∧
    (∀ (hE : Bool) (pre post : List ServerMsg) (gs : GameState),
      (∀ m ∈ pre, ServerMsg.isGameState m = false) →
      ∃ rest,
        (processTrace true hE initialClientState
            (pre ++ ServerMsg.gameState gs :: post)).2 =
          (processTrace true hE initialClientState pre).2 ++
            InitEvent.stageChange "ready" "waiting_server" ::
              InitEvent.complete :: rest ∧
        InitEvent.complete ∉ (processTrace true hE initialClientState pre).2 ∧
        InitEvent.complete ∉ rest ∧
        (∀ s, InitEvent.errorEv s ∉ rest)) := by
  constructor
  · intro hC hE msgs
    have := trace_complete_count hC hE msgs initialClientState
    simpa [initialClientState] using this
  · intro hE pre post gs hpre
    obtain ⟨hstate, hnoc⟩ := trace_no_gameState true hE pre initialClientState hpre
    have hstate0 : (processTrace true hE initialClientState pre).1.initReported = false :=
      hstate.trans rfl
    have hcond :
        (!(processTrace true hE initialClientState pre).1.initReported && true) = true := by
      rw [hstate0]
      rfl
    have hstep1 :
        (handleWebSocketMessage true hE (processTrace true hE initialClientState pre).1
          (ServerMsg.gameState gs)).1.initReported = true := by
      simp [handleWebSocketMessage, hcond]
    have hstep2 :
        (handleWebSocketMessage true hE (processTrace true hE initialClientState pre).1
          (ServerMsg.gameState gs)).2 =
          [InitEvent.stageChange "ready" "waiting_server", InitEvent.complete] := by
      simp [handleWebSocketMessage, hcond]
    obtain ⟨-, hnc, hne⟩ := trace_initReported_true true hE post _ hstep1
    refine ⟨_, ?_, hnoc, hnc, hne⟩
    rw [processTrace_append, processTrace_cons]
    simp [hstep2]

/-- C10 (witness): the protocol theorem instantiated on the trace
`match_created 1; game_state; bot_error` with no `game_state` before
the first one. -/
theorem initComplete_protocol_witness :
    (processTrace true true initialClientState
      [ServerMsg.matchCreated 1, ServerMsg.gameState gameStateExample,
        ServerMsg.botError "crash"]).2.count InitEvent.complete ≤ 1 ∧
    ∃ rest,
      (processTrace true true initialClientState
          ([ServerMsg.matchCreated 1] ++
            ServerMsg.gameState gameStateExample ::
              [ServerMsg.botError "crash"])).2 =
        (processTrace true true initialClientState
            [ServerMsg.matchCreated 1]).2 ++
          InitEvent.stageChange "ready" "waiting_server" ::
            InitEvent.complete :: rest ∧
      InitEvent.complete ∉ (processTrace true true initialClientState
          [ServerMsg.matchCreated 1]).2 ∧
      InitEvent.complete ∉ rest ∧
      (∀ s, InitEvent.errorEv s ∉ rest) :=
  ⟨initComplete_protocol.1 true true
      [ServerMsg.matchCreated 1, ServerMsg.gameState gameStateExample,
        ServerMsg.botError "crash"],
    initComplete_protocol.2 true [ServerMsg.matchCreated 1]
      [ServerMsg.botError "crash"] gameStateExample (by decide)⟩

end Othello
